import Mathlib

/-!
Verification of the spaced-repetition tracker (`src/spaced_rep.py`).

The embedding models the two persisted tables (Seen, Revisions) as lists of
rows, dates as `YYYY-MM-DD` strings with an explicit proleptic-Gregorian
day-number conversion (matching Python `datetime` semantics, including the
year-9999 upper bound), and each Python function as a Lean function of the
same name.  File writes are modelled by returning the final table states;
an operation returns the final `DB` together with the error it surfaced,
if any (the Seen write runs in a parallel task in the source, and always
completes, so it is reflected in the final state even on error paths).
-/

namespace SpacedRep

/-- Whitespace characters stripped by Python `str.strip()` (ASCII subset). -/
def isWS (c : Char) : Bool :=
  c = ' ' || c = '\t' || c = '\n' || c = '\r' || c = '\x0b' || c = '\x0c'

/-- ASCII lower-casing of one character, as Python `str.lower()` does on ASCII. -/
def lowerCh (c : Char) : Char :=
  match c with
  | 'A' => 'a' | 'B' => 'b' | 'C' => 'c' | 'D' => 'd' | 'E' => 'e'
  | 'F' => 'f' | 'G' => 'g' | 'H' => 'h' | 'I' => 'i' | 'J' => 'j'
  | 'K' => 'k' | 'L' => 'l' | 'M' => 'm' | 'N' => 'n' | 'O' => 'o'
  | 'P' => 'p' | 'Q' => 'q' | 'R' => 'r' | 'S' => 's' | 'T' => 't'
  | 'U' => 'u' | 'V' => 'v' | 'W' => 'w' | 'X' => 'x' | 'Y' => 'y'
  | 'Z' => 'z'
  | c => c

/-- Drop leading and trailing whitespace from a character list (Python `strip`). -/
def stripChars (l : List Char) : List Char :=
  ((l.dropWhile isWS).reverse.dropWhile isWS).reverse

/-- `topic.strip().lower()`, the topic normalization used throughout the source. -/
def normalize (s : String) : String :=
  ⟨(stripChars s.data).map lowerCh⟩

/-- A calendar date (year, month, day). -/
structure YMD where
  y : Nat
  m : Nat
  d : Nat
deriving DecidableEq, Repr

/-- Gregorian leap-year test. -/
def isLeap (y : Nat) : Bool :=
  y % 4 == 0 && (y % 100 != 0 || y % 400 == 0)

/-- Number of days in a month, as Python's calendar (via `datetime`) has it. -/
def daysInMonth (y m : Nat) : Nat :=
  if m = 2 then (if isLeap y then 29 else 28)
  else if m = 4 || m = 6 || m = 9 || m = 11 then 30
  else 31

/-- Day number of March 1 of (March-based) year `y`, counting from
0000-03-01 in the proleptic Gregorian calendar. -/
def yearStart (y : Nat) : Nat := 365 * y + y / 4 - y / 100 + y / 400

/-- Day number of a civil date (days since 0000-03-01 in the proleptic
Gregorian calendar). -/
def toDays (y m d : Nat) : Nat :=
  yearStart (if m ≤ 2 then y - 1 else y)
    + (153 * (if m ≤ 2 then m + 9 else m - 3) + 2) / 5 + (d - 1)

/-- Civil date of a day number; inverse of `toDays`. -/
def fromDays (n : Nat) : YMD :=
  let y1 := 400 * n / 146097
  let y := if yearStart (y1 + 1) ≤ n then y1 + 1 else y1
  let doy := n - yearStart y
  let mp := (5 * doy + 2) / 153
  let m := if mp < 10 then mp + 3 else mp - 9
  ⟨if m ≤ 2 then y + 1 else y, m, doy - (153 * mp + 2) / 5 + 1⟩

/-- Largest day number Python `datetime` supports (9999-12-31); adding a
`timedelta` beyond it raises `OverflowError`. -/
def maxDay : Nat := toDays 9999 12 31

/-- Decimal digit character. -/
def dig (n : Nat) : Char := Char.ofNat (48 + n % 10)

/-- Render a date as `YYYY-MM-DD` (`strftime("%Y-%m-%d")`). -/
def fmtDate (x : YMD) : String :=
  ⟨[dig (x.y / 1000), dig (x.y / 100 % 10), dig (x.y / 10 % 10), dig (x.y % 10),
    '-', dig (x.m / 10), dig (x.m % 10), '-', dig (x.d / 10), dig (x.d % 10)]⟩

/-- Render a day number as `YYYY-MM-DD`. -/
def fmtDay (n : Nat) : String := fmtDate (fromDays n)

/-- Split a character list on `-` separators. -/
def splitOnDash : List Char → List (List Char)
  | [] => [[]]
  | c :: cs =>
    match splitOnDash cs with
    | [] => [[]]
    | g :: gs => if c = '-' then [] :: g :: gs else (c :: g) :: gs

/-- Value of a digit string. -/
def digitsVal (l : List Char) : Nat :=
  l.foldl (fun a c => 10 * a + (c.toNat - 48)) 0

/-- The day field of CPython `strptime`: the `%d` pattern is
`3[01]|[12]\d|0[1-9]|[1-9]| [1-9]` — one or two digits, or a space followed
by a nonzero digit.  Returns the numeric value when the field matches. -/
def dayField (ds : List Char) : Option Nat :=
  match ds with
  | [' ', c] => if '1' ≤ c ∧ c ≤ '9' then some (c.toNat - 48) else none
  | _ =>
    if ds ≠ [] ∧ ds.length ≤ 2 ∧ ds.all Char.isDigit then some (digitsVal ds)
    else none

/-- Parse a date string as CPython `strptime(s, "%Y-%m-%d")` does: three
dash-separated fields — the year exactly four digits (the `%Y` pattern is
`\d\d\d\d`), the month one or two digits (the `%m` pattern), the day per
`dayField` — with the values range-checked as the `datetime` constructor
does (year at least 1, month 1..12, day valid for the month). -/
def parseYMD (s : String) : Option YMD :=
  match splitOnDash s.data with
  | [ys, ms, ds] =>
    match dayField ds with
    | none => none
    | some d =>
      if ys.length = 4 ∧ ys.all Char.isDigit ∧
         ms ≠ [] ∧ ms.length ≤ 2 ∧ ms.all Char.isDigit then
        let y := digitsVal ys
        let m := digitsVal ms
        if 1 ≤ y ∧ 1 ≤ m ∧ m ≤ 12 ∧ 1 ≤ d ∧ d ≤ daysInMonth y m then
          some ⟨y, m, d⟩
        else none
      else none
  | _ => none

/-- Parse a date string to its day number. -/
def parseDate (s : String) : Option Nat :=
  (parseYMD s).map (fun x => toDays x.y x.m x.d)

/-- A row of the Seen table (`seen.csv`): topic, first-reviewed date, url,
reset level. -/
structure SeenRow where
  topic : String
  date : String
  url : String
  reset_idx : Int
deriving DecidableEq, Repr

/-- A row of the Revisions table (`revisions.csv`). -/
structure RevRow where
  date : String
  topic : String
deriving DecidableEq, Repr

/-- The persisted state: both tables. -/
structure DB where
  seen : List SeenRow
  rev : List RevRow
deriving DecidableEq, Repr

/-- Errors the operations raise: `ValueError` on a reset level outside 0..8,
`KeyError` on an unknown topic, `ValueError` from `strptime` on a malformed
date, `OverflowError` from `datetime` past 9999-12-31. -/
inductive SRErr where
  | invalidReset
  | topicNotFound
  | dateParse
  | dateOverflow
deriving DecidableEq, Repr

/-- The schedule rows `build_space_rep` generates: one row per
`i ∈ [rc, 8]`, dated `2^i` days after day number `n`. -/
def sched (n : Nat) (t : String) (rc : Nat) : List RevRow :=
  (List.range' rc (9 - rc)).map (fun i => ⟨fmtDay (n + 2 ^ i), t⟩)

/-- `build_space_rep(df, topic, date, reset_rate)`: clamp the rate to 0..8,
parse the start date, append one row per offset `2^i` (`i` from the clamped
rate to 8) and deduplicate on (date, topic).  Raises on a malformed date, or
(from `datetime` overflow inside the loop) when the 256-day offset passes
9999-12-31. -/
def build_space_rep (df : List RevRow) (topic date : String)
    (reset_rate : Int) : Except SRErr (List RevRow) :=
  let rc : Nat := (max 0 (min reset_rate 8)).toNat
  match parseDate date with
  | none => .error .dateParse
  | some n =>
    if maxDay < n + 256 then .error .dateOverflow
    else .ok (List.dedup (df ++ sched n (normalize topic) rc))

/-- `update_revision(df, topic, date, reset_idx)`: validate the reset level,
normalize the topic, then build and persist the schedule. -/
def update_revision (df : List RevRow) (topic date : String)
    (reset_idx : Int) : Except SRErr (List RevRow) :=
  if reset_idx < 0 ∨ 8 < reset_idx then .error .invalidReset
  else build_space_rep df (normalize topic) date reset_idx

/-- `remove_topic_from_revs(df, topic, date)`: parse the cutoff, then keep
every row except those matching the normalized topic with date on or after
the cutoff.  The polars column-wise `strptime` is strict, so any malformed
date in the table raises. -/
def remove_topic_from_revs (df : List RevRow) (topic date : String) :
    Except SRErr (List RevRow) :=
  let t := normalize topic
  match parseDate date with
  | none => .error .dateParse
  | some c =>
    if df.all (fun row => (parseDate row.date).isSome) then
      .ok (df.filter (fun row => !(row.topic == t && c ≤ (parseDate row.date).getD 0)))
    else .error .dateParse

/-- `update_seen_concur(df_seen, topic, reset_rate, date)`: set the
`reset_idx` and `date` columns to the new values on rows whose topic matches
the normalized input, leaving every other cell unchanged. -/
def update_seen_concur (df : List SeenRow) (topic : String)
    (reset_rate : Int) (date : String) : List SeenRow :=
  let t := normalize topic
  df.map (fun row =>
    if row.topic = t then { row with reset_idx := reset_rate, date := date }
    else row)

/-- `add_new_topic_seen_update(df_seen, topic, date, url)`: prepend the new
row (reset level 0) to the Seen table. -/
def add_new_topic_seen_update (df : List SeenRow) (topic date url : String) :
    List SeenRow :=
  ⟨normalize topic, date, url, 0⟩ :: df

/-- `add_new_topic(topic, date, url)` acting on the persisted state, with
`today` standing for `datetime.now()` (used when the date argument is the
empty string, which Python treats as falsy).  A duplicate topic warns and
returns without touching either table.  Otherwise the Seen write and the
Revisions write are dispatched in parallel: the Seen write never fails and
always lands, while a schedule failure leaves Revisions untouched and
surfaces the error. -/
def add_new_topic (db : DB) (topic date url today : String) :
    DB × Option SRErr :=
  let t := normalize topic
  if t ∈ db.seen.map SeenRow.topic then (db, none)
  else
    let date := if date = "" then today else date
    match update_revision db.rev t date 0 with
    | .ok rev2 => (⟨add_new_topic_seen_update db.seen t date url, rev2⟩, none)
    | .error e => (⟨add_new_topic_seen_update db.seen t date url, db.rev⟩, some e)

/-- `update_entry(topic, date_to_remove_from, reset_rate)` acting on the
persisted state (`today` as in `add_new_topic`).  The reset level is
validated first, then the topic must exist in Seen; after that the Seen
write is started on its own thread (it always completes), the topic's rows
from the cutoff onward are purged from Revisions, and the schedule is
regenerated and persisted.  A failure while purging or rebuilding leaves
the Revisions file unwritten but the Seen write has already happened. -/
def update_entry (db : DB) (topic cutoff : String) (reset_rate : Int)
    (today : String) : DB × Option SRErr :=
  if reset_rate < 0 ∨ 8 < reset_rate then (db, some .invalidReset)
  else
    let cutoff := if cutoff = "" then today else cutoff
    let t := normalize topic
    if t ∉ db.seen.map SeenRow.topic then (db, some .topicNotFound)
    else
      let seen2 := update_seen_concur db.seen t reset_rate cutoff
      match remove_topic_from_revs db.rev t cutoff with
      | .error e => (⟨seen2, db.rev⟩, some e)
      | .ok rev1 =>
        match update_revision rev1 t cutoff reset_rate with
        | .error e => (⟨seen2, db.rev⟩, some e)
        | .ok rev2 => (⟨seen2, rev2⟩, none)

/-- One line of `grab_revision_list` output: the orphan warning, or a listed
topic entry (with its joined metadata). -/
inductive GrabLine where
  | warn : String → GrabLine
  | entry : String → GrabLine
deriving DecidableEq, Repr

/-- The row loop of `grab_revision_list`: for each due topic, join against
Seen.  On an orphan topic the code prints the warning and then calls
`.row(0)` on the empty filtered frame, which raises — the Boolean result
records whether that exception was raised (processing stops there). -/
def grabGo (seen : List SeenRow) : List String → List GrabLine × Bool
  | [] => ([], false)
  | t :: ts =>
    if (seen.filter (fun r => r.topic == t)).isEmpty then
      ([GrabLine.warn t], true)
    else
      let rest := grabGo seen ts
      (GrabLine.entry t :: rest.1, rest.2)

/-- `grab_revision_list(date)`: if the date appears nowhere in Revisions,
report nothing due; otherwise process each row for that date in order. -/
def grab_revision_list (seen : List SeenRow) (rev : List RevRow)
    (date : String) : List GrabLine × Bool :=
  if date ∈ rev.map RevRow.date then
    grabGo seen ((rev.filter (fun r => r.date == date)).map RevRow.topic)
  else ([], false)

/-! ### Normalization lemmas -/

/-- The upper-case letters. -/
def upperAZ : List Char :=
  ['A', 'B', 'C', 'D', 'E', 'F', 'G', 'H', 'I', 'J', 'K', 'L', 'M',
   'N', 'O', 'P', 'Q', 'R', 'S', 'T', 'U', 'V', 'W', 'X', 'Y', 'Z']

/-- The lower-case letters. -/
def lowerAZ : List Char :=
  ['a', 'b', 'c', 'd', 'e', 'f', 'g', 'h', 'i', 'j', 'k', 'l', 'm',
   'n', 'o', 'p', 'q', 'r', 's', 't', 'u', 'v', 'w', 'x', 'y', 'z']

theorem lowerCh_cases (c : Char) :
    lowerCh c = c ∨ (c ∈ upperAZ ∧ lowerCh c ∈ lowerAZ) := by
  unfold lowerCh
  split <;> simp_all <;> decide

theorem mem_lowerAZ_fix : ∀ d ∈ lowerAZ, lowerCh d = d := by decide

theorem mem_upperAZ_not_ws : ∀ d ∈ upperAZ, isWS d = false := by decide

theorem mem_lowerAZ_not_ws : ∀ d ∈ lowerAZ, isWS d = false := by decide

theorem lowerCh_idem (c : Char) : lowerCh (lowerCh c) = lowerCh c := by
  rcases lowerCh_cases c with h | ⟨hc, hl⟩
  · rw [h]
    exact h
  · exact mem_lowerAZ_fix _ hl

theorem isWS_lowerCh (c : Char) : isWS (lowerCh c) = isWS c := by
  rcases lowerCh_cases c with h | ⟨hc, hl⟩
  · rw [h]
  · rw [mem_lowerAZ_not_ws _ hl, mem_upperAZ_not_ws _ hc]

theorem dropWhile_map_lowerCh (l : List Char) :
    (l.map lowerCh).dropWhile isWS = (l.dropWhile isWS).map lowerCh := by
  induction l with
  | nil => rfl
  | cons a t ih =>
    simp only [List.map_cons, List.dropWhile_cons, isWS_lowerCh]
    cases h : isWS a with
    | true => simpa [h] using ih
    | false => simp [h]

theorem dropWhile_dropWhile {α : Type} (p : α → Bool) (l : List α) :
    (l.dropWhile p).dropWhile p = l.dropWhile p := by
  induction l with
  | nil => rfl
  | cons a t ih =>
    rw [List.dropWhile_cons]
    split_ifs with hp
    · exact ih
    · rw [List.dropWhile_cons, if_neg hp]

theorem dropWhile_first_false {α : Type} (p : α → Bool) (l : List α) :
    ∀ c rest, l.dropWhile p = c :: rest → p c = false := by
  induction l with
  | nil => intro c rest h; cases h
  | cons a t ih =>
    intro c rest h
    rw [List.dropWhile_cons] at h
    split_ifs at h with hp
    · exact ih c rest h
    · cases h
      simpa using hp

theorem dropWhile_getLast? {α : Type} (p : α → Bool) (l : List α)
    (h : l.dropWhile p ≠ []) : (l.dropWhile p).getLast? = l.getLast? := by
  induction l with
  | nil => simp at h
  | cons a t ih =>
    rw [List.dropWhile_cons]
    rw [List.dropWhile_cons] at h
    split_ifs at h ⊢ with hp
    · have ht : t ≠ [] := by
        intro he
        subst he
        simp at h
      obtain ⟨b, t', rfl⟩ := List.exists_cons_of_ne_nil ht
      rw [ih h, List.getLast?_cons_cons]
    · rfl

theorem strip_strip {α : Type} (p : α → Bool) (l : List α) :
    ((((((l.dropWhile p).reverse.dropWhile p).reverse).dropWhile p).reverse).dropWhile p).reverse
      = ((l.dropWhile p).reverse.dropWhile p).reverse := by
  generalize hA : l.dropWhile p = A
  have h1 : (((A.reverse.dropWhile p).reverse).dropWhile p) = (A.reverse.dropWhile p).reverse := by
    cases hBr : (A.reverse.dropWhile p).reverse with
    | nil => rfl
    | cons c rest =>
      rw [List.dropWhile_cons]
      have hB : A.reverse.dropWhile p ≠ [] := by
        intro he
        rw [he] at hBr
        cases hBr
      have hc : some c = A.head? := by
        have e1 : (A.reverse.dropWhile p).reverse.head? = some c := by rw [hBr]; rfl
        rw [List.head?_reverse] at e1
        rw [dropWhile_getLast? p A.reverse hB, List.getLast?_reverse] at e1
        exact e1.symm
      cases hA2 : A with
      | nil => rw [hA2] at hc; cases hc
      | cons a t =>
        have hpa : p a = false := dropWhile_first_false p l a t (hA ▸ hA2)
        rw [hA2] at hc
        simp only [List.head?_cons] at hc
        cases hc
        rw [hpa]
        simp
  rw [h1, List.reverse_reverse, dropWhile_dropWhile]

theorem stripChars_idem (l : List Char) : stripChars (stripChars l) = stripChars l :=
  strip_strip isWS l

theorem strip_map (l : List Char) :
    stripChars (l.map lowerCh) = (stripChars l).map lowerCh := by
  simp only [stripChars]
  rw [dropWhile_map_lowerCh, ← List.map_reverse, dropWhile_map_lowerCh, ← List.map_reverse]

theorem normalize_idem (s : String) : normalize (normalize s) = normalize s := by
  simp only [normalize]
  congr 1
  have hcomp : lowerCh ∘ lowerCh = lowerCh := funext lowerCh_idem
  calc ((stripChars ((stripChars s.data).map lowerCh)).map lowerCh)
      = (((stripChars (stripChars s.data)).map lowerCh).map lowerCh) := by rw [strip_map]
    _ = ((stripChars (stripChars s.data)).map (lowerCh ∘ lowerCh)) := by rw [List.map_map]
    _ = ((stripChars (stripChars s.data)).map lowerCh) := by rw [hcomp]
    _ = ((stripChars s.data).map lowerCh) := by rw [stripChars_idem]

/-! ### Date arithmetic lemmas -/

theorem chooseYear (n : Nat) :
    yearStart (if yearStart (400 * n / 146097 + 1) ≤ n then 400 * n / 146097 + 1
      else 400 * n / 146097) ≤ n ∧
    n < yearStart ((if yearStart (400 * n / 146097 + 1) ≤ n then 400 * n / 146097 + 1
      else 400 * n / 146097) + 1) := by
  simp only [yearStart]
  split_ifs <;> omega

theorem yearStart_add_one (y : Nat) : yearStart (y + 1) ≤ yearStart y + 366 := by
  simp only [yearStart]
  omega

theorem toDays_recompose (n y doy mp m d : Nat)
    (h1 : yearStart y ≤ n) (h2 : n < yearStart (y + 1))
    (h3 : doy = n - yearStart y) (h4 : mp = (5 * doy + 2) / 153)
    (h5 : m = if mp < 10 then mp + 3 else mp - 9)
    (h6 : d = doy - (153 * mp + 2) / 5 + 1) :
    toDays (if m ≤ 2 then y + 1 else y) m d = n := by
  have h366 := yearStart_add_one y
  by_cases h10 : mp < 10
  · have hm : m = mp + 3 := by rw [h5, if_pos h10]
    have hm2 : ¬ m ≤ 2 := by omega
    rw [if_neg hm2]
    simp only [toDays, if_neg hm2]
    have hms : m - 3 = mp := by omega
    rw [hms]
    omega
  · have hm : m = mp - 9 := by rw [h5, if_neg h10]
    have hmp11 : mp ≤ 11 := by omega
    have hm2 : m ≤ 2 := by omega
    rw [if_pos hm2]
    simp only [toDays, if_pos hm2]
    have hy : y + 1 - 1 = y := rfl
    rw [hy]
    have hms : m + 9 = mp := by omega
    rw [hms]
    omega

theorem md_bounds_aux (n y doy mp : Nat)
    (h1 : yearStart y ≤ n) (h2 : n < yearStart (y + 1))
    (h3 : doy = n - yearStart y) (h4 : mp = (5 * doy + 2) / 153) :
    (1 ≤ if mp < 10 then mp + 3 else mp - 9) ∧
    (if mp < 10 then mp + 3 else mp - 9) ≤ 12 ∧
    1 ≤ doy - (153 * mp + 2) / 5 + 1 ∧ doy - (153 * mp + 2) / 5 + 1 ≤ 31 := by
  have h366 := yearStart_add_one y
  split_ifs <;> omega

theorem toDays_fromDays (n : Nat) :
    toDays (fromDays n).y (fromDays n).m (fromDays n).d = n := by
  simp only [fromDays]
  exact toDays_recompose n _ _ _ _ _ (chooseYear n).1 (chooseYear n).2 rfl rfl rfl rfl

theorem fromDays_m_bounds (n : Nat) :
    1 ≤ (fromDays n).m ∧ (fromDays n).m ≤ 12 := by
  simp only [fromDays]
  have h := md_bounds_aux n _ _ _ (chooseYear n).1 (chooseYear n).2 rfl rfl
  exact ⟨h.1, h.2.1⟩

theorem fromDays_d_bounds (n : Nat) :
    1 ≤ (fromDays n).d ∧ (fromDays n).d ≤ 31 := by
  simp only [fromDays]
  have h := md_bounds_aux n _ _ _ (chooseYear n).1 (chooseYear n).2 rfl rfl
  exact ⟨h.2.2.1, h.2.2.2⟩

theorem toDays_year_le (Y M D n : Nat) (hM : 1 ≤ M) (h : toDays Y M D = n)
    (hn : n ≤ maxDay) : Y ≤ 9999 := by
  have hmax : maxDay = 3652364 := rfl
  simp only [toDays, yearStart] at h
  split_ifs at h with hc
  · have hoff : 306 ≤ (153 * (M + 9) + 2) / 5 := by omega
    omega
  · omega

theorem fromDays_y_le (n : Nat) (h : n ≤ maxDay) : (fromDays n).y ≤ 9999 :=
  toDays_year_le (fromDays n).y (fromDays n).m (fromDays n).d n
    (fromDays_m_bounds n).1 (toDays_fromDays n) h

theorem fromDays_injective (a b : Nat) (h : fromDays a = fromDays b) : a = b := by
  have ha := toDays_fromDays a
  have hb := toDays_fromDays b
  rw [h] at ha
  omega

theorem dig_inj : ∀ a < 10, ∀ b < 10, dig a = dig b → a = b := by decide

theorem fmtDate_inj (x₁ x₂ : YMD) (hy1 : x₁.y ≤ 9999) (hy2 : x₂.y ≤ 9999)
    (hm1 : x₁.m ≤ 99) (hm2 : x₂.m ≤ 99) (hd1 : x₁.d ≤ 99) (hd2 : x₂.d ≤ 99)
    (h : fmtDate x₁ = fmtDate x₂) : x₁ = x₂ := by
  cases x₁ with | mk y1 m1 d1 =>
  cases x₂ with | mk y2 m2 d2 =>
  simp only at hy1 hy2 hm1 hm2 hd1 hd2
  simp only [fmtDate] at h
  have hl := congrArg String.data h
  simp only [List.cons.injEq, and_true, true_and] at hl
  obtain ⟨e1, e2, e3, e4, e5, e6, e7, e8⟩ := hl
  simp only [YMD.mk.injEq]
  have g1 := dig_inj _ (by omega) _ (by omega) e1
  have g2 := dig_inj _ (by omega) _ (by omega) e2
  have g3 := dig_inj _ (by omega) _ (by omega) e3
  have g4 := dig_inj _ (by omega) _ (by omega) e4
  have g5 := dig_inj _ (by omega) _ (by omega) e5
  have g6 := dig_inj _ (by omega) _ (by omega) e6
  have g7 := dig_inj _ (by omega) _ (by omega) e7
  have g8 := dig_inj _ (by omega) _ (by omega) e8
  omega

theorem fmtDay_inj (a b : Nat) (ha : a ≤ maxDay) (hb : b ≤ maxDay)
    (h : fmtDay a = fmtDay b) : a = b := by
  apply fromDays_injective
  refine fmtDate_inj _ _ (fromDays_y_le a ha) (fromDays_y_le b hb) ?_ ?_ ?_ ?_ h
  · have := fromDays_m_bounds a
    omega
  · have := fromDays_m_bounds b
    omega
  · have := fromDays_d_bounds a
    omega
  · have := fromDays_d_bounds b
    omega

/-! ### Operation-level helper lemmas -/

theorem reset_clamp (r : Int) (h1 : 0 ≤ r) (h2 : r ≤ 8) : max 0 (min r 8) = r := by
  omega

theorem build_space_rep_ok (df : List RevRow) (topic date : String) (r : Int)
    (n : Nat) (hp : parseDate date = some n) (hov : n + 256 ≤ maxDay) :
    build_space_rep df topic date r =
      .ok (List.dedup (df ++ sched n (normalize topic) ((max 0 (min r 8)).toNat))) := by
  simp only [build_space_rep, hp]
  rw [if_neg (by omega)]

theorem sched_length (n : Nat) (t : String) (rc : Nat) :
    (sched n t rc).length = 9 - rc := by
  simp [sched]

theorem sched_nodup (n : Nat) (t : String) (rc : Nat) (hov : n + 256 ≤ maxDay) :
    (sched n t rc).Nodup := by
  apply List.Nodup.map_on ?_ (List.nodup_range' ..)
  intro i hi j hj hf
  rw [List.mem_range'] at hi hj
  have hi8 : i ≤ 8 := by omega
  have hj8 : j ≤ 8 := by omega
  have h256 : (2 : Nat) ^ 8 = 256 := by norm_num
  have h2i : (2 : Nat) ^ i ≤ 256 := by
    calc (2 : Nat) ^ i ≤ 2 ^ 8 := Nat.pow_le_pow_right (by norm_num) hi8
    _ = 256 := h256
  have h2j : (2 : Nat) ^ j ≤ 256 := by
    calc (2 : Nat) ^ j ≤ 2 ^ 8 := Nat.pow_le_pow_right (by norm_num) hj8
    _ = 256 := h256
  simp only [RevRow.mk.injEq, and_true] at hf
  have hd := fmtDay_inj (n + 2 ^ i) (n + 2 ^ j) (by omega) (by omega) hf
  have hpow : (2 : Nat) ^ i = 2 ^ j := by omega
  exact Nat.pow_right_injective (by norm_num) hpow

theorem remove_topic_from_revs_ok (df : List RevRow) (topic date : String)
    (c : Nat) (hp : parseDate date = some c)
    (hall : ∀ row ∈ df, (parseDate row.date).isSome) :
    remove_topic_from_revs df topic date =
      .ok (df.filter (fun row =>
        !(row.topic == normalize topic && c ≤ (parseDate row.date).getD 0))) := by
  have hg : df.all (fun row => (parseDate row.date).isSome) = true := by
    rw [List.all_eq_true]
    intro x hx
    simpa using hall x hx
  simp only [remove_topic_from_revs, hp, hg, if_true]

theorem mem_purged (df : List RevRow) (t : String) (c : Nat) (x : RevRow) :
    (x ∈ df.filter (fun row =>
      !(row.topic == t && c ≤ (parseDate row.date).getD 0))) ↔
      (x ∈ df ∧ ¬(x.topic = t ∧ c ≤ (parseDate x.date).getD 0)) := by
  rw [List.mem_filter]
  simp only [Bool.not_eq_true', Bool.and_eq_false_iff, beq_iff_eq, beq_eq_false_iff_ne,
    decide_eq_true_eq, decide_eq_false_iff_not, not_and]
  tauto

/-! ### Claim theorems -/

/-- C3 (code bug): `grab_revision_list` on a date whose Revisions rows include a
topic absent from Seen prints the orphan warning for that row but then calls
`.row(0)` on the empty filtered Seen frame, which raises; the remaining valid
row for the same date (topic `"a"`, present in Seen) is never listed.  The
output is exactly the warning line with the raised-exception flag set, refuting
the claim that the listing continues without error. -/
theorem C3_listdue_orphan_bug :
    grab_revision_list [⟨"a", "2024-01-01", "u", 0⟩]
      [⟨"2025-01-01", "ghost"⟩, ⟨"2025-01-01", "a"⟩] "2025-01-01"
      = ([GrabLine.warn "ghost"], true) := by decide

/-- C5: for every integer reset rate outside 0..8, `update_entry` fails with
the invalid-reset-level error before touching anything, leaving both the Seen
and Revisions tables unchanged. -/
theorem C5_invalid_reset (db : DB) (topic cutoff today : String) (r : Int)
    (h : r < 0 ∨ 8 < r) :
    update_entry db topic cutoff r today = (db, some SRErr.invalidReset) := by
  simp only [update_entry, if_pos h]

/-- Witness for C5 at reset rate 9. -/
theorem C5_invalid_reset_witness :
    ((9 : Int) < 0 ∨ 8 < (9 : Int)) ∧
    update_entry ⟨[⟨"x", "2024-01-01", "u", 0⟩], []⟩ "x" "2024-06-01" 9 "" =
      (⟨[⟨"x", "2024-01-01", "u", 0⟩], []⟩, some SRErr.invalidReset) :=
  ⟨by decide, C5_invalid_reset ⟨[⟨"x", "2024-01-01", "u", 0⟩], []⟩ "x"
    "2024-06-01" "" 9 (by decide)⟩

/-- C7: for every reset rate in 0..8 and topic whose normalized form is absent
from Seen, `update_entry` fails with the not-found error and leaves both
tables unchanged. -/
theorem C7_update_not_found (db : DB) (topic cutoff today : String) (r : Int)
    (h1 : 0 ≤ r) (h2 : r ≤ 8)
    (h3 : normalize topic ∉ db.seen.map SeenRow.topic) :
    update_entry db topic cutoff r today = (db, some SRErr.topicNotFound) := by
  simp only [update_entry]
  rw [if_neg (by omega), if_pos h3]

/-- Witness for C7 with an absent topic. -/
theorem C7_update_not_found_witness :
    (0 : Int) ≤ 3 ∧ (3 : Int) ≤ 8 ∧
    normalize "ghost" ∉ ([⟨"x", "2024-01-01", "u", 0⟩] : List SeenRow).map SeenRow.topic ∧
    update_entry ⟨[⟨"x", "2024-01-01", "u", 0⟩], [⟨"2024-01-02", "x"⟩]⟩
      "ghost" "2024-06-01" 3 "" =
      (⟨[⟨"x", "2024-01-01", "u", 0⟩], [⟨"2024-01-02", "x"⟩]⟩, some SRErr.topicNotFound) :=
  ⟨by decide, by decide, by decide,
    C7_update_not_found ⟨[⟨"x", "2024-01-01", "u", 0⟩], [⟨"2024-01-02", "x"⟩]⟩
      "ghost" "2024-06-01" "" 3 (by decide) (by decide) (by decide)⟩

/-- C10: `update_seen_concur` keeps the Seen row count, never touches the
`topic` or `url` column of any row, leaves non-matching rows entirely
unchanged, and on rows whose topic equals the normalized input sets exactly
the `date` and `reset_idx` columns to the new values. -/
theorem C10_seen_frame (df : List SeenRow) (topic date : String) (r : Int) (i : Nat) :
    (update_seen_concur df topic r date).length = df.length ∧
    ((update_seen_concur df topic r date)[i]?).map SeenRow.topic
      = (df[i]?).map SeenRow.topic ∧
    ((update_seen_concur df topic r date)[i]?).map SeenRow.url
      = (df[i]?).map SeenRow.url ∧
    (∀ row, df[i]? = some row → row.topic ≠ normalize topic →
      (update_seen_concur df topic r date)[i]? = some row) ∧
    (∀ row, df[i]? = some row → row.topic = normalize topic →
      (update_seen_concur df topic r date)[i]?
        = some { row with date := date, reset_idx := r }) := by
  simp only [update_seen_concur, List.getElem?_map, List.length_map]
  refine ⟨trivial, ?_, ?_, ?_, ?_⟩
  · cases h : df[i]? with
    | none => rfl
    | some row =>
      simp only [Option.map_some']
      split_ifs <;> rfl
  · cases h : df[i]? with
    | none => rfl
    | some row =>
      simp only [Option.map_some']
      split_ifs <;> rfl
  · intro row h hne
    simp only [h, Option.map_some', if_neg hne]
  · intro row h heq
    simp only [h, Option.map_some', if_pos heq]

/-- Witness for C10 on a two-row table (one matching, one not). -/
theorem C10_seen_frame_witness :
    (update_seen_concur [⟨"x", "2024-01-01", "u", 0⟩, ⟨"y", "2024-02-02", "v", 2⟩]
        " X " 4 "2024-03-03").length
      = ([⟨"x", "2024-01-01", "u", 0⟩, ⟨"y", "2024-02-02", "v", 2⟩] : List SeenRow).length ∧
    (([⟨"x", "2024-01-01", "u", 0⟩, ⟨"y", "2024-02-02", "v", 2⟩] : List SeenRow)[1]?
        = some ⟨"y", "2024-02-02", "v", 2⟩) ∧
    ((⟨"y", "2024-02-02", "v", 2⟩ : SeenRow).topic ≠ normalize " X ") ∧
    (update_seen_concur [⟨"x", "2024-01-01", "u", 0⟩, ⟨"y", "2024-02-02", "v", 2⟩]
        " X " 4 "2024-03-03")[1]? = some ⟨"y", "2024-02-02", "v", 2⟩ := by
  refine ⟨(C10_seen_frame [⟨"x", "2024-01-01", "u", 0⟩, ⟨"y", "2024-02-02", "v", 2⟩]
    " X " "2024-03-03" 4 1).1, by decide, by decide,
    (C10_seen_frame [⟨"x", "2024-01-01", "u", 0⟩, ⟨"y", "2024-02-02", "v", 2⟩]
      " X " "2024-03-03" 4 1).2.2.2.1 ⟨"y", "2024-02-02", "v", 2⟩ (by decide) (by decide)⟩

/-- C6: if Seen holds one row per topic, then after `add_new_topic` — with any
topic string, including one whose trimmed lower-cased form is already present
— it still holds one row per topic, and a duplicate add leaves Seen exactly
as it was. -/
theorem C6_addtopic_unique (db : DB) (topic date url today : String)
    (h : (db.seen.map SeenRow.topic).Nodup) :
    ((add_new_topic db topic date url today).1.seen.map SeenRow.topic).Nodup ∧
    (normalize topic ∈ db.seen.map SeenRow.topic →
      (add_new_topic db topic date url today).1.seen = db.seen) := by
  by_cases hm : normalize topic ∈ db.seen.map SeenRow.topic
  · simp only [add_new_topic, if_pos hm]
    exact ⟨h, fun _ => trivial⟩
  · constructor
    · simp only [add_new_topic, if_neg hm]
      cases hb : update_revision db.rev (normalize topic)
          (if date = "" then today else date) 0 with
      | ok v =>
        simp only [hb, add_new_topic_seen_update, List.map_cons]
        rw [List.nodup_cons, normalize_idem]
        exact ⟨hm, h⟩
      | error e =>
        simp only [hb, add_new_topic_seen_update, List.map_cons]
        rw [List.nodup_cons, normalize_idem]
        exact ⟨hm, h⟩
    · intro hmem
      exact absurd hmem hm

/-- Witness for C6: a duplicate add (modulo trim and case) leaves Seen with
one row per topic. -/
theorem C6_addtopic_unique_witness :
    (([⟨"x", "2024-01-01", "u", 0⟩] : List SeenRow).map SeenRow.topic).Nodup ∧
    ((add_new_topic ⟨[⟨"x", "2024-01-01", "u", 0⟩], []⟩
        " X " "2024-06-01" "v" "").1.seen.map SeenRow.topic).Nodup ∧
    (normalize " X " ∈ ([⟨"x", "2024-01-01", "u", 0⟩] : List SeenRow).map SeenRow.topic →
      (add_new_topic ⟨[⟨"x", "2024-01-01", "u", 0⟩], []⟩
        " X " "2024-06-01" "v" "").1.seen = [⟨"x", "2024-01-01", "u", 0⟩]) :=
  ⟨by decide,
    (C6_addtopic_unique ⟨[⟨"x", "2024-01-01", "u", 0⟩], []⟩ " X " "2024-06-01" "v" ""
      (by decide)).1,
    (C6_addtopic_unique ⟨[⟨"x", "2024-01-01", "u", 0⟩], []⟩ " X " "2024-06-01" "v" ""
      (by decide)).2⟩

/-- C8: merging the same schedule twice is idempotent — running
`build_space_rep` again with the same topic, date and reset rate yields the
same set of (date, topic) rows. -/
theorem C8_merge_idempotent (df : List RevRow) (topic date : String) (r : Int)
    (u v : List RevRow)
    (h1 : build_space_rep df topic date r = .ok u)
    (h2 : build_space_rep u topic date r = .ok v) :
    ∀ x, x ∈ v ↔ x ∈ u := by
  cases hp : parseDate date with
  | none =>
    simp only [build_space_rep, hp] at h1
    cases h1
  | some n =>
    by_cases hov : maxDay < n + 256
    · simp only [build_space_rep, hp, if_pos hov] at h1
      cases h1
    · rw [build_space_rep_ok df topic date r n hp (by omega)] at h1
      rw [build_space_rep_ok u topic date r n hp (by omega)] at h2
      injection h1 with h1'
      injection h2 with h2'
      subst h1' h2'
      intro x
      simp only [List.mem_dedup, List.mem_append]
      tauto

/-- Witness for C8 on a concrete table and schedule. -/
theorem C8_merge_idempotent_witness :
    build_space_rep [⟨"2024-06-29", "z"⟩] "x" "2024-06-28" 7 =
      .ok [⟨"2024-06-29", "z"⟩, ⟨"2024-11-03", "x"⟩, ⟨"2025-03-11", "x"⟩] ∧
    build_space_rep [⟨"2024-06-29", "z"⟩, ⟨"2024-11-03", "x"⟩, ⟨"2025-03-11", "x"⟩]
        "x" "2024-06-28" 7 =
      .ok [⟨"2024-06-29", "z"⟩, ⟨"2024-11-03", "x"⟩, ⟨"2025-03-11", "x"⟩] ∧
    (∀ x, x ∈ [(⟨"2024-06-29", "z"⟩ : RevRow), ⟨"2024-11-03", "x"⟩, ⟨"2025-03-11", "x"⟩] ↔
      x ∈ [(⟨"2024-06-29", "z"⟩ : RevRow), ⟨"2024-11-03", "x"⟩, ⟨"2025-03-11", "x"⟩]) :=
  ⟨by rfl, by rfl,
    C8_merge_idempotent [⟨"2024-06-29", "z"⟩] "x" "2024-06-28" 7
      [⟨"2024-06-29", "z"⟩, ⟨"2024-11-03", "x"⟩, ⟨"2025-03-11", "x"⟩]
      [⟨"2024-06-29", "z"⟩, ⟨"2024-11-03", "x"⟩, ⟨"2025-03-11", "x"⟩]
      (by rfl) (by rfl)⟩

/-- C9: whenever the schedule generator's result is persisted — directly, or
through a successful `add_new_topic` on a fresh topic, or through a successful
`update_entry` — the resulting Revisions table has no duplicate (date, topic)
row, for every input table including one that already contained duplicates. -/
theorem C9_rev_nodup :
    (∀ (df : List RevRow) (topic date : String) (r : Int) (u : List RevRow),
      build_space_rep df topic date r = .ok u → u.Nodup) ∧
    (∀ (db : DB) (topic date url today : String) (db' : DB),
      normalize topic ∉ db.seen.map SeenRow.topic →
      add_new_topic db topic date url today = (db', none) → db'.rev.Nodup) ∧
    (∀ (db : DB) (topic cutoff today : String) (r : Int) (db' : DB),
      update_entry db topic cutoff r today = (db', none) → db'.rev.Nodup) := by
  have hbuild : ∀ (df : List RevRow) (topic date : String) (r : Int) (u : List RevRow),
      build_space_rep df topic date r = .ok u → u.Nodup := by
    intro df topic date r u h
    cases hp : parseDate date with
    | none =>
      simp only [build_space_rep, hp] at h
      cases h
    | some n =>
      simp only [build_space_rep, hp] at h
      split_ifs at h with hov
      all_goals cases h
      all_goals exact List.nodup_dedup _
  refine ⟨hbuild, ?_, ?_⟩
  · intro db topic date url today db' hm h
    simp only [add_new_topic, if_neg hm] at h
    cases hb : update_revision db.rev (normalize topic)
        (if date = "" then today else date) 0 with
    | ok v =>
      rw [hb] at h
      rw [Prod.mk.injEq] at h
      rw [← h.1]
      simp only [update_revision] at hb
      rw [if_neg (by omega)] at hb
      exact hbuild _ _ _ _ _ hb
    | error e =>
      rw [hb] at h
      simp at h
  · intro db topic cutoff today r db' h
    simp only [update_entry] at h
    set cut := if cutoff = "" then today else cutoff with hcut
    split_ifs at h with hr hnf
    · simp at h
    · cases hrem : remove_topic_from_revs db.rev (normalize topic) cut with
      | error e =>
        rw [hrem] at h
        simp at h
      | ok rev1 =>
        simp only [hrem] at h
        cases hupd : update_revision rev1 (normalize topic) cut r with
        | error e =>
          simp only [hupd] at h
          simp at h
        | ok rev2 =>
          simp only [hupd] at h
          rw [Prod.mk.injEq] at h
          rw [← h.1]
          simp only [update_revision] at hupd
          rw [if_neg hr] at hupd
          exact hbuild _ _ _ _ _ hupd
    · simp at h

/-- Witness for C9: a Revisions table that already contains a duplicate row is
deduplicated by the generator, and successful add/update calls leave
duplicate-free tables. -/
theorem C9_rev_nodup_witness :
    (build_space_rep [⟨"2024-06-29", "x"⟩, ⟨"2024-06-29", "x"⟩] "x" "2024-06-28" 8 =
      Except.ok [⟨"2024-06-29", "x"⟩, ⟨"2025-03-11", "x"⟩]) ∧
    ([(⟨"2024-06-29", "x"⟩ : RevRow), ⟨"2025-03-11", "x"⟩] : List RevRow).Nodup ∧
    (normalize "y" ∉ ([⟨"x", "2024-01-01", "u", 0⟩] : List SeenRow).map SeenRow.topic) ∧
    (add_new_topic ⟨[⟨"x", "2024-01-01", "u", 0⟩], [⟨"2024-06-29", "x"⟩, ⟨"2024-06-29", "x"⟩]⟩
        "y" "2024-06-28" "u" "" =
      (⟨[⟨"y", "2024-06-28", "u", 0⟩, ⟨"x", "2024-01-01", "u", 0⟩],
        [⟨"2024-06-29", "x"⟩, ⟨"2024-06-29", "y"⟩, ⟨"2024-06-30", "y"⟩, ⟨"2024-07-02", "y"⟩,
         ⟨"2024-07-06", "y"⟩, ⟨"2024-07-14", "y"⟩, ⟨"2024-07-30", "y"⟩, ⟨"2024-08-31", "y"⟩,
         ⟨"2024-11-03", "y"⟩, ⟨"2025-03-11", "y"⟩]⟩, none)) ∧
    ([(⟨"2024-06-29", "x"⟩ : RevRow), ⟨"2024-06-29", "y"⟩, ⟨"2024-06-30", "y"⟩, ⟨"2024-07-02", "y"⟩,
      ⟨"2024-07-06", "y"⟩, ⟨"2024-07-14", "y"⟩, ⟨"2024-07-30", "y"⟩, ⟨"2024-08-31", "y"⟩,
      ⟨"2024-11-03", "y"⟩, ⟨"2025-03-11", "y"⟩] : List RevRow).Nodup := by
  refine ⟨by rfl, C9_rev_nodup.1 [⟨"2024-06-29", "x"⟩, ⟨"2024-06-29", "x"⟩]
    "x" "2024-06-28" 8 [⟨"2024-06-29", "x"⟩, ⟨"2025-03-11", "x"⟩] (by rfl),
    by decide, by decide, ?_⟩
  have h := C9_rev_nodup.2.1
    ⟨[⟨"x", "2024-01-01", "u", 0⟩], [⟨"2024-06-29", "x"⟩, ⟨"2024-06-29", "x"⟩]⟩
    "y" "2024-06-28" "u" ""
    ⟨[⟨"y", "2024-06-28", "u", 0⟩, ⟨"x", "2024-01-01", "u", 0⟩],
      [⟨"2024-06-29", "x"⟩, ⟨"2024-06-29", "y"⟩, ⟨"2024-06-30", "y"⟩, ⟨"2024-07-02", "y"⟩,
       ⟨"2024-07-06", "y"⟩, ⟨"2024-07-14", "y"⟩, ⟨"2024-07-30", "y"⟩, ⟨"2024-08-31", "y"⟩,
       ⟨"2024-11-03", "y"⟩, ⟨"2025-03-11", "y"⟩]⟩ (by decide) (by rfl)
  exact h

/-- C1 (amended): for every reset level `r` in 0..8 and parseable start date
whose 256-day offset stays within year 9999, `build_space_rep` succeeds and
the resulting row set is exactly the old rows plus one row per offset `2^i`
(`i = r..8`) — `9 - r` distinct new rows, no others; and the concrete example
`AddTopic("x", "2024-06-28")` yields revision dates 2024-06-29, 2024-06-30,
2024-07-02, 2024-07-06, 2024-07-14, 2024-07-30, 2024-08-31, 2024-11-03 and
2025-03-11 (the claim's last two dates, 2024-11-02 and 2025-03-13, are
miscalculated: 128 and 256 days after 2024-06-28 land on 2024-11-03 and
2025-03-11). -/
theorem C1_build_schedule :
    (∀ (df : List RevRow) (topic date : String) (r : Int) (n : Nat),
      0 ≤ r → r ≤ 8 → parseDate date = some n → n + 256 ≤ maxDay →
      build_space_rep df topic date r =
          .ok (List.dedup (df ++ sched n (normalize topic) r.toNat)) ∧
        (∀ x, x ∈ List.dedup (df ++ sched n (normalize topic) r.toNat) ↔
          (x ∈ df ∨ x ∈ sched n (normalize topic) r.toNat)) ∧
        (sched n (normalize topic) r.toNat).length = 9 - r.toNat ∧
        (sched n (normalize topic) r.toNat).Nodup) ∧
    (add_new_topic ⟨[], []⟩ "x" "2024-06-28" "u" "").1.rev.map RevRow.date =
      ["2024-06-29", "2024-06-30", "2024-07-02", "2024-07-06", "2024-07-14",
       "2024-07-30", "2024-08-31", "2024-11-03", "2025-03-11"] := by
  constructor
  · intro df topic date r n h1 h2 hp hov
    refine ⟨?_, ?_, ?_, ?_⟩
    · rw [build_space_rep_ok df topic date r n hp hov, reset_clamp r h1 h2]
    · intro x
      rw [List.mem_dedup, List.mem_append]
    · exact sched_length n (normalize topic) r.toNat
    · exact sched_nodup n (normalize topic) r.toNat hov
  · decide

/-- Counterexample to C1 as stated: at the claim's own example input, the
generated schedule does not contain the claimed dates 2024-11-02 and
2025-03-13; the actual offsets of 128 and 256 days from 2024-06-28 are
2024-11-03 and 2025-03-11. -/
theorem C1_build_schedule_counterexample :
    "2024-11-02" ∉ (add_new_topic ⟨[], []⟩ "x" "2024-06-28" "u" "").1.rev.map RevRow.date ∧
    "2025-03-13" ∉ (add_new_topic ⟨[], []⟩ "x" "2024-06-28" "u" "").1.rev.map RevRow.date ∧
    "2024-11-03" ∈ (add_new_topic ⟨[], []⟩ "x" "2024-06-28" "u" "").1.rev.map RevRow.date ∧
    "2025-03-11" ∈ (add_new_topic ⟨[], []⟩ "x" "2024-06-28" "u" "").1.rev.map RevRow.date := by
  decide

/-- Witness for C1's universal part at the example input. -/
theorem C1_build_schedule_witness :
    (0 : Int) ≤ 0 ∧ (0 : Int) ≤ 8 ∧ parseDate "2024-06-28" = some 739370 ∧
    739370 + 256 ≤ maxDay ∧
    (build_space_rep [] "x" "2024-06-28" 0 =
        .ok (List.dedup (([] : List RevRow) ++ sched 739370 (normalize "x") (0 : Int).toNat)) ∧
      (∀ x, x ∈ List.dedup (([] : List RevRow) ++ sched 739370 (normalize "x") (0 : Int).toNat) ↔
        (x ∈ ([] : List RevRow) ∨ x ∈ sched 739370 (normalize "x") (0 : Int).toNat)) ∧
      (sched 739370 (normalize "x") (0 : Int).toNat).length = 9 - (0 : Int).toNat ∧
      (sched 739370 (normalize "x") (0 : Int).toNat).Nodup) :=
  ⟨by decide, by decide, by decide, by decide,
    C1_build_schedule.1 [] "x" "2024-06-28" 0 739370
      (by decide) (by decide) (by decide) (by decide)⟩

/-- C2 (amended): for a topic present in Seen, reset level in 0..8, parseable
cutoff whose 256-day offset stays within year 9999, and a Revisions table
whose dates all parse, `update_entry` succeeds; the Seen table gets exactly
the topic's rows re-dated to the cutoff with the new reset level, and the
final Revisions row set is the old rows minus this topic's rows dated on or
after the cutoff, plus the regenerated schedule at cutoff + 2^i for
i = r..8.  (The claim's unrestricted quantification over cutoff dates fails
when cutoff + 256 days exceeds 9999-12-31: the date library overflows, the
run errors, and the purge/merge is never persisted.) -/
theorem C2_update_entry (db : DB) (topic cutoff today : String) (r : Int) (c : Nat)
    (h1 : 0 ≤ r) (h2 : r ≤ 8)
    (h3 : normalize topic ∈ db.seen.map SeenRow.topic)
    (h4 : parseDate cutoff = some c)
    (h5 : ∀ row ∈ db.rev, (parseDate row.date).isSome)
    (h6 : c + 256 ≤ maxDay) :
    update_entry db topic cutoff r today =
      (⟨db.seen.map (fun row =>
          if row.topic = normalize topic then { row with date := cutoff, reset_idx := r }
          else row),
        List.dedup ((db.rev.filter (fun row =>
          !(row.topic == normalize topic && c ≤ (parseDate row.date).getD 0)))
          ++ sched c (normalize topic) r.toNat)⟩, none) ∧
    (∀ x, x ∈ List.dedup ((db.rev.filter (fun row =>
          !(row.topic == normalize topic && c ≤ (parseDate row.date).getD 0)))
          ++ sched c (normalize topic) r.toNat) ↔
      ((x ∈ db.rev ∧ ¬(x.topic = normalize topic ∧ c ≤ (parseDate x.date).getD 0)) ∨
        x ∈ sched c (normalize topic) r.toNat)) := by
  have hne : cutoff ≠ "" := by
    intro he
    rw [he] at h4
    have hemp : parseDate "" = none := by decide
    rw [hemp] at h4
    cases h4
  constructor
  · simp only [update_entry]
    rw [if_neg (by omega)]
    simp only [if_neg hne]
    rw [if_neg (not_not_intro h3)]
    have hrem := remove_topic_from_revs_ok db.rev (normalize topic) cutoff c h4 h5
    rw [normalize_idem] at hrem
    simp only [hrem]
    have hupd : update_revision (db.rev.filter (fun row =>
        !(row.topic == normalize topic && c ≤ (parseDate row.date).getD 0)))
        (normalize topic) cutoff r =
        .ok (List.dedup ((db.rev.filter (fun row =>
          !(row.topic == normalize topic && c ≤ (parseDate row.date).getD 0)))
          ++ sched c (normalize topic) r.toNat)) := by
      simp only [update_revision]
      rw [if_neg (by omega)]
      rw [build_space_rep_ok _ _ _ _ c h4 (by omega)]
      rw [normalize_idem, normalize_idem, reset_clamp r h1 h2]
    simp only [hupd]
    simp only [update_seen_concur, normalize_idem]
  · intro x
    rw [List.mem_dedup, List.mem_append, mem_purged]

/-- Counterexample to C2 as stated: with cutoff 9999-06-01 (so that the
256-day offset overflows the date library's year-9999 limit), `update_entry`
on an existing topic errors after the Seen write; the Revisions table is left
exactly as it was — no schedule row is merged, contrary to the claim. -/
theorem C2_update_entry_counterexample :
    (update_entry ⟨[⟨"x", "2024-01-01", "u", 0⟩], [⟨"2024-01-02", "x"⟩]⟩
      "x" "9999-06-01" 0 "").1.rev = [⟨"2024-01-02", "x"⟩] ∧
    (update_entry ⟨[⟨"x", "2024-01-01", "u", 0⟩], [⟨"2024-01-02", "x"⟩]⟩
      "x" "9999-06-01" 0 "").2 = some SRErr.dateOverflow := by
  decide

/-- Witness for C2 at the spec's worked example (topic "x", cutoff
2024-06-24, reset level 1): the pre-cutoff row and the other topic's row are
kept, the post-cutoff row is purged, the schedule is regenerated from the
cutoff, and the Seen row is re-dated. -/
theorem C2_update_entry_witness :
    (0 : Int) ≤ 1 ∧ (1 : Int) ≤ 8 ∧
    normalize "x" ∈ ([⟨"x", "2024-06-28", "u", 0⟩] : List SeenRow).map SeenRow.topic ∧
    parseDate "2024-06-24" = some 739366 ∧
    (∀ row ∈ ([⟨"2024-06-29", "x"⟩, ⟨"2024-06-20", "x"⟩, ⟨"2024-06-29", "z"⟩] : List RevRow),
      (parseDate row.date).isSome) ∧
    739366 + 256 ≤ maxDay ∧
    (update_entry ⟨[⟨"x", "2024-06-28", "u", 0⟩],
        [⟨"2024-06-29", "x"⟩, ⟨"2024-06-20", "x"⟩, ⟨"2024-06-29", "z"⟩]⟩
        "x" "2024-06-24" 1 "").1.seen = [⟨"x", "2024-06-24", "u", 1⟩] ∧
    (update_entry ⟨[⟨"x", "2024-06-28", "u", 0⟩],
        [⟨"2024-06-29", "x"⟩, ⟨"2024-06-20", "x"⟩, ⟨"2024-06-29", "z"⟩]⟩
        "x" "2024-06-24" 1 "").1.rev =
      [⟨"2024-06-20", "x"⟩, ⟨"2024-06-29", "z"⟩, ⟨"2024-06-26", "x"⟩, ⟨"2024-06-28", "x"⟩,
       ⟨"2024-07-02", "x"⟩, ⟨"2024-07-10", "x"⟩, ⟨"2024-07-26", "x"⟩, ⟨"2024-08-27", "x"⟩,
       ⟨"2024-10-30", "x"⟩, ⟨"2025-03-07", "x"⟩] ∧
    (update_entry ⟨[⟨"x", "2024-06-28", "u", 0⟩],
        [⟨"2024-06-29", "x"⟩, ⟨"2024-06-20", "x"⟩, ⟨"2024-06-29", "z"⟩]⟩
        "x" "2024-06-24" 1 "").2 = none := by
  have h := C2_update_entry
    ⟨[⟨"x", "2024-06-28", "u", 0⟩],
      [⟨"2024-06-29", "x"⟩, ⟨"2024-06-20", "x"⟩, ⟨"2024-06-29", "z"⟩]⟩
    "x" "2024-06-24" "" 1 739366
    (by decide) (by decide) (by decide) (by decide) (by decide) (by decide)
  refine ⟨by decide, by decide, by decide, by decide, by decide, by decide, ?_, ?_, ?_⟩
  · rw [h.1]
    decide
  · rw [h.1]
    decide
  · rw [h.1]

/-- C4 (amended): a non-empty date string that fails to parse makes
`add_new_topic` (on a fresh topic) and `update_entry` (on an existing topic,
valid reset level) fail with the parsing error and leaves Revisions
untouched — but the Seen table IS written before the failure surfaces,
because the Seen write runs in a parallel task that never parses the date:
the add inserts the new row carrying the malformed string, and the update
overwrites the topic's date with it.  A duplicate-topic add returns the
warning path without ever parsing the date, so it does not fail at all.
(The claim's "no file write takes place" and unconditional "fail with a
parsing error" are both refuted.) -/
theorem C4_malformed_date (s : String) (hs : s ≠ "") (hp : parseDate s = none) :
    (∀ (db : DB) (topic url today : String),
      normalize topic ∉ db.seen.map SeenRow.topic →
      add_new_topic db topic s url today =
        (⟨⟨normalize topic, s, url, 0⟩ :: db.seen, db.rev⟩, some SRErr.dateParse)) ∧
    (∀ (db : DB) (topic today : String) (r : Int), 0 ≤ r → r ≤ 8 →
      normalize topic ∈ db.seen.map SeenRow.topic →
      update_entry db topic s r today =
        (⟨db.seen.map (fun row =>
            if row.topic = normalize topic then { row with date := s, reset_idx := r }
            else row), db.rev⟩, some SRErr.dateParse)) ∧
    (∀ (db : DB) (topic url today : String),
      normalize topic ∈ db.seen.map SeenRow.topic →
      add_new_topic db topic s url today = (db, none)) := by
  refine ⟨?_, ?_, ?_⟩
  · intro db topic url today hm
    simp only [add_new_topic, if_neg hm, if_neg hs]
    have hur : update_revision db.rev (normalize topic) s 0 = .error SRErr.dateParse := by
      simp only [update_revision]
      rw [if_neg (by omega)]
      simp only [build_space_rep, hp]
    simp only [hur, add_new_topic_seen_update, normalize_idem]
  · intro db topic today r hr1 hr2 hm
    simp only [update_entry]
    rw [if_neg (by omega)]
    simp only [if_neg hs]
    rw [if_neg (not_not_intro hm)]
    have hrem : remove_topic_from_revs db.rev (normalize topic) s =
        .error SRErr.dateParse := by
      simp only [remove_topic_from_revs, hp]
    simp only [hrem, update_seen_concur, normalize_idem]
  · intro db topic url today hm
    simp only [add_new_topic, if_pos hm]

/-- Counterexample to C4 as stated: `update_entry` with the malformed date
string "not-a-date" does fail with the parsing error, but the Seen table has
been modified (its date column now carries the malformed string), refuting
"no file write takes place before the failure". -/
theorem C4_malformed_date_counterexample :
    (update_entry ⟨[⟨"x", "2024-01-01", "u", 0⟩], [⟨"2024-01-02", "x"⟩]⟩
      "x" "not-a-date" 0 "").2 = some SRErr.dateParse ∧
    (update_entry ⟨[⟨"x", "2024-01-01", "u", 0⟩], [⟨"2024-01-02", "x"⟩]⟩
      "x" "not-a-date" 0 "").1.seen ≠ [⟨"x", "2024-01-01", "u", 0⟩] := by
  decide

/-- Witness for C4 with the malformed date "garbage" against concrete
tables, exercising the fresh-topic add and the existing-topic update. -/
theorem C4_malformed_date_witness :
    ("garbage" ≠ "") ∧ parseDate "garbage" = none ∧
    normalize " X " ∈ ([⟨"x", "2024-01-01", "u", 0⟩] : List SeenRow).map SeenRow.topic ∧
    (0 : Int) ≤ 0 ∧ (0 : Int) ≤ 8 ∧
    update_entry ⟨[⟨"x", "2024-01-01", "u", 0⟩], [⟨"2024-01-02", "x"⟩]⟩
        " X " "garbage" 0 "" =
      (⟨[⟨"x", "garbage", "u", 0⟩], [⟨"2024-01-02", "x"⟩]⟩, some SRErr.dateParse) ∧
    normalize "y" ∉ ([⟨"x", "2024-01-01", "u", 0⟩] : List SeenRow).map SeenRow.topic ∧
    add_new_topic ⟨[⟨"x", "2024-01-01", "u", 0⟩], []⟩ "y" "garbage" "v" "" =
      (⟨[⟨"y", "garbage", "v", 0⟩, ⟨"x", "2024-01-01", "u", 0⟩], []⟩,
        some SRErr.dateParse) := by
  have h := C4_malformed_date "garbage" (by decide) (by decide)
  refine ⟨by decide, by decide, by decide, by decide, by decide, ?_, by decide, ?_⟩
  · rw [h.2.1 ⟨[⟨"x", "2024-01-01", "u", 0⟩], [⟨"2024-01-02", "x"⟩]⟩ " X " "" 0
      (by decide) (by decide) (by decide)]
    decide
  · rw [h.1 ⟨[⟨"x", "2024-01-01", "u", 0⟩], []⟩ "y" "v" "" (by decide)]
    decide

end SpacedRep
